import Mathlib

set_option maxRecDepth 8000

/-!
Shallow embedding of the "Execution Companion" bot (bot.py, database.py,
engine.py, openai_client.py): persistent entities are rows in in-memory
lists ordered by creation time (ascending `created_at`), the SQLite
queries become list operations, and the Telegram callback handlers become
explicit state transitions on a combined durable-store + session state.
External LLM responses are passed in as explicit parameters (`Option`
records with `Option` fields modelling JSON key presence).
-/

/-! ## Python string primitives, modelled structurally over `String.data`
so that every definition evaluates inside the kernel. -/

/-- ASCII whitespace as stripped by Python `str.strip()`. -/
def isSpace (c : Char) : Bool :=
  c == ' ' || c == '\t' || c == '\n' || c == '\r' || c == '\x0b' || c == '\x0c'

/-- Python `str.strip()`. -/
def pyStrip (s : String) : String :=
  ⟨((s.data.dropWhile isSpace).reverse.dropWhile isSpace).reverse⟩

/-- Split a character list at every character satisfying `p` (Python
`str.split(sep)` semantics for a one-character separator: no collapsing,
`n` separators give `n + 1` parts). -/
def splitCharsOn (p : Char → Bool) : List Char → List (List Char)
  | [] => [[]]
  | c :: rest =>
      if p c then [] :: splitCharsOn p rest
      else
        match splitCharsOn p rest with
        | [] => [[c]]
        | g :: gs => (c :: g) :: gs

/-- Python `str.split(sep)` for a one-character separator. -/
def pySplitChar (s : String) (p : Char → Bool) : List String :=
  (splitCharsOn p s.data).map String.mk

/-- Python `str.lower()` (ASCII case mapping; every token the source
compares after lowering is ASCII). -/
def pyLower (s : String) : String :=
  ⟨s.data.map Char.toLower⟩

/-- Python `str.startswith(pre)`. -/
def pyStartsWith (s pre : String) : Bool :=
  pre.data.isPrefixOf s.data

/-- Replace the leftmost, non-overlapping occurrences of `pat`; fuelled
by the input length, which one character of progress per step makes
sufficient. -/
def replaceFuel (pat rep : List Char) : Nat → List Char → List Char
  | _, [] => []
  | 0, cs => cs
  | fuel + 1, c :: rest =>
      if pat.isPrefixOf (c :: rest) then
        rep ++ replaceFuel pat rep fuel ((c :: rest).drop pat.length)
      else c :: replaceFuel pat rep fuel rest

/-- Python `str.replace(pat, rep)` (all occurrences, left to right). -/
def pyReplace (s pat rep : String) : String :=
  ⟨replaceFuel pat.data rep.data s.data.length s.data⟩

/-- Python slicing `s[:n]` (by code point, as Python indexes). -/
def pyTake (s : String) (n : Nat) : String :=
  ⟨s.data.take n⟩

/-- Python `c in s` for a one-character needle. -/
def pyContains (s : String) (c : Char) : Bool :=
  s.data.contains c

/-- Row of table `users` (bot.py `init_db`).  Only the columns the claims
touch are modelled; `low_energy_mode INTEGER` is modelled as `Bool`,
`last_progress_date TEXT` (nullable) as `Option String`. -/
structure User where
  user_id : Nat
  low_energy_mode : Bool
  streak_days : Nat
  last_progress_date : Option String
deriving DecidableEq, Inhabited

/-- Row of table `goals`.  List position models ascending `created_at`. -/
structure Goal where
  goal_id : Nat
  user_id : Nat
  title : String
  is_active : Bool
deriving DecidableEq, Inhabited

/-- Row of table `phases`. -/
structure Phase where
  phase_id : Nat
  goal_id : Nat
  title : String
  is_active : Bool
deriving DecidableEq, Inhabited

/-- Row of table `task_items`.  `status` is the raw TEXT column
(closed vocabulary not_started / in_progress / completed / dropped). -/
structure TaskItem where
  task_id : Nat
  phase_id : Nat
  title : String
  status : String
deriving DecidableEq, Inhabited

/-- Row of table `mainlines`. -/
structure Mainline where
  mainline_id : Nat
  user_id : Nat
  goal_id : Option Nat
  phase_id : Option Nat
  date : String
  title : String
  source : String
  task_id_ref : Option Nat
deriving DecidableEq, Inhabited

/-- Row of table `steps`.  `kind` is micro / upgrade, `status` is
ready / executing / done / deferred, both raw TEXT as in the schema. -/
structure Step where
  step_id : Nat
  mainline_id : Nat
  kind : String
  duration_min : Nat
  instruction : String
  acceptance_criteria : String
  difficulty : Nat
  status : String
deriving DecidableEq, Inhabited

/-- Row of table `deferred_links`. -/
structure DeferredLink where
  user_id : Nat
  deferred_step_id : Nat
  mainline_id : Nat
deriving DecidableEq, Inhabited

/-- Row of table `if_then_plans`. -/
structure IfThenPlan where
  user_id : Nat
  date : String
  if_trigger : String
  then_action : String
  reward : Option String
deriving DecidableEq, Inhabited

/-- Row of table `evidence`. -/
structure Evidence where
  user_id : Nat
  counter_evidence : String
  tags : List String
deriving DecidableEq, Inhabited

/-- The durable SQLite store.  Each list holds the rows of one table in
insertion order (ascending `created_at` / autoincrement id); the `next…`
counters model the AUTOINCREMENT id generators for the tables whose
fresh ids the transitions use. -/
structure Db where
  users : List User
  goals : List Goal
  phases : List Phase
  tasks : List TaskItem
  mainlines : List Mainline
  steps : List Step
  deferred_links : List DeferredLink
  if_then_plans : List IfThenPlan
  evidence : List Evidence
  nextMainlineId : Nat
  nextStepId : Nat
deriving DecidableEq, Inhabited

/-! ## Database layer (bot.py lines 153-460 / database.py) -/

/-- bot.py `ensure_user`: insert a default row when absent. -/
def ensure_user (db : Db) (uid : Nat) : Db :=
  if db.users.any (fun u => u.user_id == uid) then db
  else { db with users := db.users ++ [⟨uid, false, 0, none⟩] }

/-- bot.py `get_user`: `SELECT * FROM users WHERE user_id=?`. -/
def get_user (db : Db) (uid : Nat) : Option User :=
  db.users.find? (fun u => u.user_id == uid)

/-- bot.py `update_user(uid, streak_days=…, last_progress_date=…)` as used
by `update_streak`: set the two fields on the matching row. -/
def update_user_streak_fields (db : Db) (uid : Nat) (streak : Nat) (d : String) : Db :=
  { db with users := db.users.map (fun u =>
      if u.user_id == uid then { u with streak_days := streak, last_progress_date := some d } else u) }

/-- bot.py `update_streak` (= database.py `update_streak`): the idempotent
day-guarded streak increment.  `none` models the TypeError the source
raises when the user row is absent; otherwise returns the updated store
and the streak value the function reports. -/
def update_streak (db : Db) (uid : Nat) (today : String) : Option (Db × Nat) :=
  (get_user db uid).map (fun u =>
    if u.last_progress_date == some today then (db, u.streak_days)
    else (update_user_streak_fields db uid (u.streak_days + 1) today, u.streak_days + 1))

/-- bot.py `get_active_goal`: active goals of the user ordered by
`created_at DESC LIMIT 1`, i.e. the most recently created active row. -/
def get_active_goal (db : Db) (uid : Nat) : Option Goal :=
  (db.goals.filter (fun g => g.user_id == uid && g.is_active)).getLast?

/-- bot.py `get_active_phase`: `fetchone` on the active phases of a goal
(first matching row). -/
def get_active_phase (db : Db) (gid : Nat) : Option Phase :=
  db.phases.find? (fun p => p.goal_id == gid && p.is_active)

/-- bot.py `list_tasks`: rows of a phase, optionally filtered by status,
ordered by `created_at` (list order). -/
def list_tasks (db : Db) (pid : Nat) (status_filter : Option String) : List TaskItem :=
  match status_filter with
  | some s => db.tasks.filter (fun t => t.phase_id == pid && t.status == s)
  | none => db.tasks.filter (fun t => t.phase_id == pid)

/-- bot.py `update_task(task_id, status=…)` as used by the transitions. -/
def update_task (db : Db) (tid : Nat) (status : String) : Db :=
  { db with tasks := db.tasks.map (fun t =>
      if t.task_id == tid then { t with status := status } else t) }

/-- bot.py `create_mainline`: INSERT with today's date, returning the new
autoincrement id. -/
def create_mainline (db : Db) (uid : Nat) (title source : String)
    (goal_id phase_id task_id_ref : Option Nat) (today : String) : Db × Nat :=
  let mid := db.nextMainlineId
  ({ db with
      mainlines := db.mainlines ++ [⟨mid, uid, goal_id, phase_id, today, title, source, task_id_ref⟩],
      nextMainlineId := mid + 1 }, mid)

/-- bot.py `get_today_mainline`: rows of the user dated today, ordered by
`created_at DESC LIMIT 1`. -/
def get_today_mainline (db : Db) (uid : Nat) (today : String) : Option Mainline :=
  (db.mainlines.filter (fun m => m.user_id == uid && m.date == today)).getLast?

/-- bot.py `create_step`: INSERT, status takes the schema default
`ready`; returns the new autoincrement id. -/
def create_step (db : Db) (mlid : Nat) (kind : String) (dur : Nat)
    (instruction criteria : String) (difficulty : Nat) : Db × Nat :=
  let sid := db.nextStepId
  ({ db with
      steps := db.steps ++ [⟨sid, mlid, kind, dur, instruction, criteria, difficulty, "ready"⟩],
      nextStepId := sid + 1 }, sid)

/-- bot.py `get_step`: `SELECT * FROM steps WHERE step_id=?`. -/
def get_step (db : Db) (sid : Nat) : Option Step :=
  db.steps.find? (fun s => s.step_id == sid)

/-- bot.py `update_step(sid, status=…)` as used by every transition. -/
def update_step (db : Db) (sid : Nat) (status : String) : Db :=
  { db with steps := db.steps.map (fun s =>
      if s.step_id == sid then { s with status := status } else s) }

/-- bot.py `get_active_step`: steps of a mainline with status in
(ready, executing), ordered by `created_at DESC LIMIT 1`. -/
def get_active_step (db : Db) (mlid : Nat) : Option Step :=
  (db.steps.filter (fun s => s.mainline_id == mlid &&
    (s.status == "ready" || s.status == "executing"))).getLast?

/-- bot.py `create_deferred`: INSERT a deferral marker row. -/
def create_deferred (db : Db) (uid sid mlid : Nat) : Db :=
  { db with deferred_links := db.deferred_links ++ [⟨uid, sid, mlid⟩] }

/-- The JOIN of one deferred_links row with its step and mainline, as in
the `get_deferred` query; `none` when a joined row is absent. -/
def joinDeferred (db : Db) (d : DeferredLink) : Option (DeferredLink × Step × Mainline) :=
  (get_step db d.deferred_step_id).bind (fun s =>
    (db.mainlines.find? (fun m => m.mainline_id == d.mainline_id)).map (fun m => (d, s, m)))

/-- bot.py `get_deferred`: the user's deferred_links rows joined with
steps and mainlines, ordered by `dl.created_at DESC LIMIT 1` — the most
recent row that joins. -/
def get_deferred (db : Db) (uid : Nat) : Option (DeferredLink × Step × Mainline) :=
  ((db.deferred_links.filter (fun d => d.user_id == uid)).filterMap (joinDeferred db)).getLast?

/-- bot.py `clear_deferred`: `DELETE FROM deferred_links WHERE user_id=?`
— every row of the user, not only the newest. -/
def clear_deferred (db : Db) (uid : Nat) : Db :=
  { db with deferred_links := db.deferred_links.filter (fun d => !(d.user_id == uid)) }

/-- bot.py `create_evidence`: append-only INSERT. -/
def create_evidence (db : Db) (uid : Nat) (text : String) (tags : List String) : Db :=
  { db with evidence := db.evidence ++ [⟨uid, text, tags⟩] }

/-- bot.py `save_if_then`: INSERT an if-then plan row dated today. -/
def save_if_then (db : Db) (uid : Nat) (today : String)
    (if_trigger then_action : String) (reward : Option String) : Db :=
  { db with if_then_plans := db.if_then_plans ++ [⟨uid, today, if_trigger, then_action, reward⟩] }

/-! ## Candidate selection (bot.py `choose_candidates`, lines 589-620) -/

/-- One labelled option produced by the CandidateSelector. -/
structure Candidate where
  title : String
  reason : String
  task_id : Option Nat
deriving DecidableEq, Inhabited

/-- The complete pair the CandidateSelector always returns. -/
structure Candidates where
  A : Candidate
  B : Candidate
deriving DecidableEq, Inhabited

/-- The phase-resolution prelude of `choose_candidates`: use the given
phase id, else the active phase of the active goal. -/
def resolve_phase (db : Db) (uid : Nat) (phase_id : Option Nat) : Option Nat :=
  match phase_id with
  | some p => some p
  | none => (get_active_goal db uid).bind (fun g =>
      (get_active_phase db g.goal_id).map (fun p => p.phase_id))

/-- bot.py `choose_candidates(uid, phase_id, low_energy)`.  The
`low_energy` parameter is accepted but — exactly as in the source body —
never read.  `ip[0] if ip else ns[0]` is translated by the match on `ip`
(the `headD default` arm is unreachable: it is guarded by `all_t` being
non-empty). -/
def choose_candidates (db : Db) (uid : Nat) (phase_id : Option Nat) (low_energy : Bool) : Candidates :=
  match resolve_phase db uid phase_id with
  | none =>
      ⟨⟨"建立任务池 — 写出5个待办任务标题", "还没有任务", none⟩,
       ⟨"建立任务池 — 写出3个关键任务标题", "轻量版", none⟩⟩
  | some p =>
      let ip := list_tasks db p (some ("in_progress"))
      let ns := list_tasks db p (some ("not_started"))
      let all_t := ip ++ ns
      if all_t.isEmpty then
        ⟨⟨"建立任务池 — 写出5个待办任务标题", "任务池为空", none⟩,
         ⟨"建立任务池 — 写出3个关键任务标题", "轻量版", none⟩⟩
      else
        let primary := match ip with
          | t :: _ => t
          | [] => ns.headD default
        let secondary := all_t.find? (fun t => !(t.task_id == primary.task_id))
        let a : Candidate :=
          ⟨"推进「" ++ primary.title ++ "」",
           if primary.status == "in_progress" then "继续进行中" else "优先启动",
           some primary.task_id⟩
        let b : Candidate :=
          match secondary with
          | some s => ⟨"轻量推进「" ++ s.title ++ "」", "低能量也能推进", some s.task_id⟩
          | none => ⟨"「" ++ primary.title ++ "」— 只做最小起步", "缩小版", some primary.task_id⟩
        ⟨a, b⟩

/-- Modelled from the spec §4.1 wording (for comparison with the code):
primary = first in_progress TaskItem if any exists, else first not_started
TaskItem, insertion order being the only tie-break. -/
def spec_primary (db : Db) (pid : Nat) : Option TaskItem :=
  match db.tasks.find? (fun t => t.phase_id == pid && t.status == "in_progress") with
  | some t => some t
  | none => db.tasks.find? (fun t => t.phase_id == pid && t.status == "not_started")

/-! ## Import parsing (bot.py `parse_import_text`, lines 631-649) -/

/-- One parsed task dict produced by the import parser. -/
structure ImportItem where
  title : String
  type_ : String
  status : String
  tags : List String
  difficulty_self_rating : Option Nat
deriving DecidableEq, Inhabited

/-- `re.split(r"\s*[-—]\s*", line)` splits at every single dash character
with the adjacent whitespace absorbed into the separator; since the
caller strips every part anyway, this equals splitting at the dash
characters and trimming each part. -/
def dashSplit (line : String) : List String :=
  (pySplitChar line (fun c => c == '-' || c == '—')).map pyStrip

/-- The body of the `for part in parts[1:]` loop: sequentially fold the
recognised field tokens over the (status, tags, type) accumulator. -/
def applyField (acc : String × List String × String) (part : String) : String × List String × String :=
  let p := pyLower (pyStrip part)
  if p == "not_started" || p == "in_progress" || p == "completed" || p == "dropped" then
    (p, acc.2.1, acc.2.2)
  else if pyStartsWith p ("tags:") then
    (acc.1,
     ((pySplitChar (pyReplace p ("tags:") ("")) (fun c => c == ',')).map pyStrip).filter (fun t => !(t == "")),
     acc.2.2)
  else if pyStartsWith p ("type:") then
    (acc.1, acc.2.1, pyStrip (pyReplace p ("type:") ("")))
  else acc

/-- The body of the `for line in raw.strip().split("\n")` loop: skip
blank lines and lines whose title strips to empty, else append one item
with the folded field values. -/
def parse_line_fold (items : List ImportItem) (l : String) : List ImportItem :=
  let line := pyStrip l
  if line == "" then items
  else
    let parts := dashSplit line
    let title := pyStrip (parts.headD (""))
    if title == "" then items
    else
      let st := (parts.drop 1).foldl applyField ("not_started", ([] : List String), "misc")
      items ++ [⟨title, st.2.2, st.1, st.2.1, none⟩]

/-- bot.py `parse_import_text`: one item per line whose title is
non-empty after splitting on the dash delimiter and stripping. -/
def parse_import_text (raw : String) : List ImportItem :=
  (pySplitChar (pyStrip raw) (fun c => c == '\n')).foldl parse_line_fold []

/-! ## LLM layer (bot.py lines 467-582): each generator takes the parsed
JSON response of `_call_llm` as an explicit argument (`none` = both
attempts failed / invalid JSON / no client; `Option` fields model JSON
key presence) and returns what the source returns. -/

/-- The `micro_step` sub-object of a micro-step response, with every key
optional as the LLM may omit any of them. -/
structure PartialMicro where
  duration_min : Option Nat
  instruction : Option String
  acceptance_criteria : Option String
deriving DecidableEq, Inhabited

/-- A parsed micro-step response: only the `micro_step` key matters to
the source (`if r and "micro_step" in r`). -/
structure MicroResp where
  micro_step : Option PartialMicro
deriving DecidableEq, Inhabited

/-- The fixed fallback of bot.py `llm_micro_step` (lines 519-522). -/
def micro_fallback (mainline_title : String) : MicroResp :=
  ⟨some ⟨some 2,
    some ("打开「" ++ pyTake mainline_title 20 ++ "」相关材料，找到你要开始的位置。"),
    some ("材料已打开在屏幕上")⟩⟩

/-- bot.py `llm_micro_step`: return the response whenever the
`micro_step` key is present, else the fixed fallback. -/
def llm_micro_step (mainline_title : String) (r : Option MicroResp) : MicroResp :=
  match r with
  | some resp => if resp.micro_step.isSome then resp else micro_fallback mainline_title
  | none => micro_fallback mainline_title

/-- The `step` sub-object of an upgrade-step response. -/
structure PartialUpgrade where
  duration_min : Option Nat
  instruction : Option String
  acceptance_criteria : Option String
  difficulty : Option Nat
deriving DecidableEq, Inhabited

/-- A parsed upgrade-step response: only the `step` key is checked. -/
structure UpgradeResp where
  step : Option PartialUpgrade
deriving DecidableEq, Inhabited

/-- The fixed fallback of bot.py `llm_upgrade_step` (lines 534-537). -/
def upgrade_fallback (mainline_title : String) : UpgradeResp :=
  ⟨some ⟨some 8,
    some ("继续推进「" ++ pyTake mainline_title 20 ++ "」——完成下一个小节或练习。"),
    some ("能用1句话说出完成了什么"), some 1⟩⟩

/-- bot.py `llm_upgrade_step` (the `micro_instruction` argument only
feeds the prompt, never the output). -/
def llm_upgrade_step (mainline_title : String) (_micro_instruction : Option String)
    (r : Option UpgradeResp) : UpgradeResp :=
  match r with
  | some resp => if resp.step.isSome then resp else upgrade_fallback mainline_title
  | none => upgrade_fallback mainline_title

/-- The `plan` sub-object of an if-then response. -/
structure PartialPlan where
  if_trigger : Option String
  then_action : Option String
  reward : Option String
deriving DecidableEq, Inhabited

/-- A parsed if-then response: only the `plan` key is checked. -/
structure IfThenResp where
  plan : Option PartialPlan
deriving DecidableEq, Inhabited

/-- The fixed fallback of bot.py `llm_if_then` (lines 545-547). -/
def if_then_fallback : IfThenResp :=
  ⟨some ⟨some ("如果我开始犹豫或想刷手机"),
    some ("我先做2分钟起步动作"), some ("完成后休息3分钟")⟩⟩

/-- bot.py `llm_if_then` (title feeds the prompt only). -/
def llm_if_then (_mainline_title : String) (r : Option IfThenResp) : IfThenResp :=
  match r with
  | some resp => if resp.plan.isSome then resp else if_then_fallback
  | none => if_then_fallback

/-- A parsed intervention response; the source only checks the
`intervention_text` key before returning it as-is. -/
structure InterventionResp where
  stuck_type : Option String
  emotion_label : Option String
  body_reset : Option String
  intervention_text : Option String
  restart_step : Option PartialMicro
  push_line : Option String
  evidence_quotes : Option (List String)
deriving DecidableEq, Inhabited

/-- One entry of the `FB` fallback table in bot.py `llm_intervention`
(lines 565-577): (body_reset, intervention_text, restart_step, push_line)
with the restart step always 2 minutes. -/
structure FbEntry where
  body_reset : String
  intervention_text : String
  rs_duration : Nat
  rs_instruction : String
  rs_criteria : String
  push_line : String
deriving DecidableEq, Inhabited

def fb_PERFECTIONISM : FbEntry :=
  ⟨"双手握拳3秒，松开。", "完美是陷阱。我们只做一个烂版本——比空白好一万倍。", 2,
   "写下关于任务你知道的3个词。不准修改。", "3个词出现在屏幕上", "烂版本 > 空白 →"⟩

def fb_GOAL_TOO_BIG : FbEntry :=
  ⟨"站起来伸展双臂5秒。", "你不需要看到终点，只看下一步。", 2,
   "打开你需要的页面或文件。只是打开。", "页面已打开", "打开了就是开始 →"⟩

def fb_OVERTHINKING : FbEntry :=
  ⟨"鼻子吸气→再吸→嘴巴长呼气，做两轮。", "大脑在转圈不是在前进。开始了才会想清楚。", 2,
   "不做选择——直接做第一个动作。", "动手了", "动了就对了 →"⟩

def fb_EMOTIONAL_FRICTION : FbEntry :=
  ⟨"双脚踩实地面，感受脚底压力10秒。", "给情绪取个名字。情绪不需要消失，带着它做2分钟。", 2,
   "带着情绪，写下今天任务的标题。", "写下了标题", "我们已经在动了 →"⟩

def fb_REWARD_MISMATCH : FbEntry :=
  ⟨"手机翻面朝下推远。", "先做2分钟再刷——带着完成感刷，完全不一样。", 2,
   "手机远离，打开任务材料。", "手机远离+材料打开", "2分钟后你自由了 →"⟩

def fb_SELF_LIMITING : FbEntry :=
  ⟨"双手按压桌面5秒，松开。", "「我不行」是想法不是事实。只需要试2分钟。", 2,
   "写下：「我不确定我行，但我可以试2分钟。」", "写下了这句话", "试了就是证据 →"⟩

/-- `FB.get(stuck_type, FB["OVERTHINKING"])`: the six keyed entries with
the OVERTHINKING entry as default for unknown stuck types. -/
def fb_table (stuck_type : String) : FbEntry :=
  if stuck_type == "PERFECTIONISM" then fb_PERFECTIONISM
  else if stuck_type == "GOAL_TOO_BIG" then fb_GOAL_TOO_BIG
  else if stuck_type == "OVERTHINKING" then fb_OVERTHINKING
  else if stuck_type == "EMOTIONAL_FRICTION" then fb_EMOTIONAL_FRICTION
  else if stuck_type == "REWARD_MISMATCH" then fb_REWARD_MISMATCH
  else if stuck_type == "SELF_LIMITING" then fb_SELF_LIMITING
  else fb_OVERTHINKING

/-- Python truthiness of `evidence_list` (a possibly-absent list). -/
def evTruthy (e : Option (List String)) : Bool :=
  match e with
  | some l => !l.isEmpty
  | none => false

/-- Python falsiness of `r.get("evidence_quotes")`. -/
def quotesFalsy (q : Option (List String)) : Bool :=
  match q with
  | some l => l.isEmpty
  | none => true

/-- The fallback branch of bot.py `llm_intervention` (lines 579-582):
fixed content keyed by stuck type, with `evidence_quotes` filled for
SELF_LIMITING when evidence exists. -/
def intervention_fallback (stuck_type : String) (emotion : Option String)
    (evidence_list : Option (List String)) : InterventionResp :=
  let fb := fb_table stuck_type
  { stuck_type := some stuck_type,
    emotion_label := some (emotion.getD ("")),
    body_reset := some fb.body_reset,
    intervention_text := some fb.intervention_text,
    restart_step := some ⟨some fb.rs_duration, some fb.rs_instruction, some fb.rs_criteria⟩,
    push_line := some fb.push_line,
    evidence_quotes :=
      if stuck_type == "SELF_LIMITING" && evTruthy evidence_list then
        some ((evidence_list.getD []).take 3)
      else none }

/-- bot.py `llm_intervention` (lines 550-582); `mainline` and
`step_instr` feed the prompt only.  When the response carries
`intervention_text` it is returned as-is, except that a SELF_LIMITING
response with falsy `evidence_quotes` is patched with the first three
evidence entries. -/
def llm_intervention (stuck_type : String) (emotion _mainline _step_instr : Option String)
    (evidence_list : Option (List String)) (r : Option InterventionResp) : InterventionResp :=
  match r with
  | some resp =>
      if resp.intervention_text.isSome then
        if stuck_type == "SELF_LIMITING" && quotesFalsy resp.evidence_quotes && evTruthy evidence_list then
          { resp with evidence_quotes := some ((evidence_list.getD []).take 3) }
        else resp
      else intervention_fallback stuck_type emotion evidence_list
  | none => intervention_fallback stuck_type emotion evidence_list

/-- Schema validity of a micro-step response per the §6 contract: the
required fields duration, instruction, acceptance criteria all present. -/
def micro_complete (r : MicroResp) : Bool :=
  match r.micro_step with
  | some m => m.duration_min.isSome && m.instruction.isSome && m.acceptance_criteria.isSome
  | none => false

/-- Schema validity of an intervention response per the §6 contract:
body_reset, intervention_text, restart_step (with its three fields) and
push_line all present (`evidence_quotes` is optional in the schema). -/
def intervention_complete (r : InterventionResp) : Bool :=
  r.body_reset.isSome && r.intervention_text.isSome && r.push_line.isSome &&
  (match r.restart_step with
   | some rs => rs.duration_min.isSome && rs.instruction.isSome && rs.acceptance_criteria.isSome
   | none => false)

/-! ## Progression state machine (bot.py `cmd_today`, `_gen_today` and the
`cb` callback router, lines 681-941).  `ctx.user_data` becomes `Session`,
the message screen the handler leaves behind becomes `Screen`, and each
handler is a transition on the combined state `St`.  A transition
returns `none` exactly where the source would raise (an unguarded NULL /
missing dictionary key); everything committed before such a crash is
irrelevant to the claims, which all run on the non-crashing paths. -/

/-- The per-user scratch context `ctx.user_data` (the candidate cache
used only by the switch handler is not modelled). -/
structure Session where
  step_id : Option Nat
  ml_id : Option Nat
deriving DecidableEq, Inhabited

/-- The screen the handler leaves the conversation on. -/
inductive Screen where
  | mainMenu
  | stepPrompt
  | timerRunning
  | upgradeOffer
  | reviewTags
  | exitFarewell
deriving DecidableEq, Inhabited

/-- Combined state: durable store + session scratch + current screen. -/
structure St where
  db : Db
  sess : Session
  screen : Screen
deriving DecidableEq, Inhabited

/-- Which of the three entry-resolution branches `cmd_today` took. -/
inductive Branch where
  | resumedDeferred
  | adoptedLive
  | generatedFresh
deriving DecidableEq, Inhabited

/-- The external generator responses available to one fresh-generation
turn (`_gen_today` consults the micro-step and the if-then generator). -/
structure GenInputs where
  microResp : Option MicroResp
  ifThenResp : Option IfThenResp
deriving DecidableEq, Inhabited

/-- bot.py `_gen_today` (lines 717-759): resolve the active goal/phase,
choose candidates, pick B in low-energy mode else A, persist a new
Mainline, mark its task in_progress, persist the generated micro Step
(which becomes current) and quietly save an if-then plan.  `none` models
the KeyError when the micro response carries `micro_step` with required
sub-fields missing. -/
def gen_today (uid : Nat) (today : String) (g : GenInputs) (st : St) : Option St :=
  let goal := get_active_goal st.db uid
  let goal_id := goal.map (fun go => go.goal_id)
  let phase_id := goal.bind (fun go => (get_active_phase st.db go.goal_id).map (fun p => p.phase_id))
  match get_user st.db uid with
  | none => none
  | some u =>
      let low := u.low_energy_mode
      let cands := choose_candidates st.db uid phase_id low
      let chosen := if low then cands.B else cands.A
      let src := if phase_id.isSome then "auto_from_phase" else "manual"
      let r1 := create_mainline st.db uid chosen.title src goal_id phase_id chosen.task_id today
      let db2 := match chosen.task_id with
        | some tid => update_task r1.1 tid ("in_progress")
        | none => r1.1
      let micro := llm_micro_step chosen.title g.microResp
      match micro.micro_step with
      | none => none
      | some ms =>
          match ms.duration_min, ms.instruction, ms.acceptance_criteria with
          | some dur, some instr, some crit =>
              let r2 := create_step db2 r1.2 ("micro") dur instr crit 1
              let it := llm_if_then chosen.title g.ifThenResp
              let db4 := match it.plan with
                | some p => save_if_then r2.1 uid today (p.if_trigger.getD ("")) (p.then_action.getD ("")) p.reward
                | none => r2.1
              some ⟨db4, ⟨some r2.2, some r1.2⟩, Screen.stepPrompt⟩
          | _, _, _ => none

/-- bot.py `cmd_today` (lines 681-714): entry resolution.  Deferral
first (adopt, mark ready, clear the link), else today's Mainline with a
live Step, else fresh generation.  The `Branch` component records which
branch was taken. -/
def cmd_today (uid : Nat) (today : String) (g : GenInputs) (st : St) : Branch × Option St :=
  let db0 := ensure_user st.db uid
  match get_deferred db0 uid with
  | some d =>
      let db1 := update_step db0 d.1.deferred_step_id ("ready")
      let db2 := clear_deferred db1 uid
      (Branch.resumedDeferred,
       some ⟨db2, ⟨some d.1.deferred_step_id, some d.1.mainline_id⟩, Screen.stepPrompt⟩)
  | none =>
      match get_today_mainline db0 uid today with
      | some m =>
          match get_active_step db0 m.mainline_id with
          | some s =>
              (Branch.adoptedLive,
               some ⟨db0, ⟨some s.step_id, some m.mainline_id⟩, Screen.stepPrompt⟩)
          | none => (Branch.generatedFresh, gen_today uid today g ⟨db0, st.sess, st.screen⟩)
      | none => (Branch.generatedFresh, gen_today uid today g ⟨db0, st.sess, st.screen⟩)

/-- The `today_fresh` callback (bot.py lines 774-776): clear the user's
deferral and regenerate. -/
def cb_today_fresh (uid : Nat) (today : String) (g : GenInputs) (st : St) : Option St :=
  let db0 := ensure_user st.db uid
  gen_today uid today g ⟨clear_deferred db0 uid, st.sess, st.screen⟩

/-- The `done_micro` callback (bot.py lines 828-846): mark the current
Step done, generate an upgrade step for the Mainline title, persist it
as the new current Step, and offer the upgrade.  `none` models the
crashes on a missing session mainline id or on a `step` response with
required sub-fields missing. -/
def cb_done_micro (uid : Nat) (r : Option UpgradeResp) (st : St) : Option St :=
  let db0 := ensure_user st.db uid
  let db1 := match st.sess.step_id with
    | some sid => update_step db0 sid ("done")
    | none => db0
  let title := match st.sess.ml_id.bind (fun m => db1.mainlines.find? (fun ml => ml.mainline_id == m)) with
    | some ml => ml.title
    | none => "任务"
  let stp := st.sess.step_id.bind (get_step db1)
  let upgrade := llm_upgrade_step title (stp.map (fun s => s.instruction)) r
  match upgrade.step with
  | none => none
  | some us =>
      match us.duration_min, us.instruction, us.acceptance_criteria with
      | some dur, some instr, some crit =>
          match st.sess.ml_id with
          | some mlid =>
              let r2 := create_step db1 mlid ("upgrade") dur instr crit (us.difficulty.getD 1)
              some ⟨r2.1, ⟨some r2.2, st.sess.ml_id⟩, Screen.upgradeOffer⟩
          | none => none
      | _, _, _ => none

/-- The `done_upgrade` callback (bot.py lines 849-852): mark the current
Step done and enter the Review sub-flow; no Step is created. -/
def cb_done_upgrade (uid : Nat) (st : St) : St :=
  let db0 := ensure_user st.db uid
  let db1 := match st.sess.step_id with
    | some sid => update_step db0 sid ("done")
    | none => db0
  ⟨db1, st.sess, Screen.reviewTags⟩

/-- `instr.split("，")[0] if "，" in instr else instr.split("。")[0]`:
the first clause, split on the primary delimiter with fallback to the
secondary one. -/
def first_clause (instr : String) : String :=
  if pyContains instr '，' then (pySplitChar instr (fun c => c == '，')).headD instr
  else (pySplitChar instr (fun c => c == '。')).headD instr

/-- The `shrink` callback (bot.py lines 917-929): create a new current
micro Step whose instruction wraps the first clause of the current
Step's instruction, with duration fixed at 2. -/
def cb_shrink (uid : Nat) (st : St) : St :=
  let db0 := ensure_user st.db uid
  let stp := st.sess.step_id.bind (get_step db0)
  let instr := match stp with
    | some s => s.instruction
    | none => "做一个最小动作"
  let first := first_clause instr
  match st.sess.ml_id with
  | some mlid =>
      let r2 := create_step db0 mlid ("micro") 2 ("只做一件事：" ++ first ++ "。做完就算赢。") ("完成了这一个动作") 1
      ⟨r2.1, ⟨some r2.2, st.sess.ml_id⟩, Screen.stepPrompt⟩
  | none => ⟨db0, st.sess, Screen.stepPrompt⟩

/-- The `exit` callback (bot.py lines 932-941): when a current step and
mainline are in the session, mark the step deferred and write a
DeferredLink pointing at it. -/
def cb_exit (uid : Nat) (st : St) : St :=
  let db0 := ensure_user st.db uid
  match st.sess.step_id, st.sess.ml_id with
  | some sid, some mlid =>
      let db1 := update_step db0 sid ("deferred")
      let db2 := create_deferred db1 uid sid mlid
      ⟨db2, st.sess, Screen.exitFarewell⟩
  | _, _ => ⟨db0, st.sess, Screen.exitFarewell⟩

/-- An upgrade response the state machine can consume without crashing:
either absent / marker-less (so the fallback is used) or carrying every
required sub-field. -/
def wellFormedUpgrade (r : Option UpgradeResp) : Bool :=
  match r with
  | none => true
  | some resp =>
      match resp.step with
      | none => true
      | some us => us.duration_min.isSome && us.instruction.isSome && us.acceptance_criteria.isSome

/-- A micro response the state machine can consume without crashing. -/
def wellFormedMicro (r : Option MicroResp) : Bool :=
  match r with
  | none => true
  | some resp =>
      match resp.micro_step with
      | none => true
      | some ms => ms.duration_min.isSome && ms.instruction.isSome && ms.acceptance_criteria.isSome

/-! ## Concrete states used by the scenario parts of the claims and by
the witnesses. -/

def wUser : User := ⟨7, false, 0, none⟩

def wMainline : Mainline := ⟨1, 7, none, none, "2025-06-01", "读完第一页", "manual", none⟩

/-- The executing micro Step of the spec's Exit/Resume scenario. -/
def wStep : Step := ⟨1, 1, "micro", 2, "打开材料，开始读第一页", "材料已打开在屏幕上", 1, "executing"⟩

def wDb : Db := ⟨[wUser], [], [], [], [wMainline], [wStep], [], [], [], 2, 2⟩

def wSt : St := ⟨wDb, ⟨some 1, some 1⟩, Screen.timerRunning⟩

/-- An executing upgrade Step, for the complete-upgrade transition. -/
def upgStep : Step := ⟨1, 1, "upgrade", 8, "继续写下一节", "能说出完成了什么", 1, "executing"⟩

def upgSt : St := ⟨⟨[wUser], [], [], [], [wMainline], [upgStep], [], [], [], 2, 2⟩, ⟨some 1, some 1⟩, Screen.timerRunning⟩

/-- The executing Step of the spec's Shrink scenario. -/
def shrinkStep : Step := ⟨1, 1, "micro", 8, "读第一章，写总结", "写完总结", 1, "executing"⟩

def shrinkSt : St := ⟨⟨[wUser], [], [], [], [wMainline], [shrinkStep], [], [], [], 2, 2⟩, ⟨some 1, some 1⟩, Screen.timerRunning⟩

/-- A deferred Step with two coexisting DeferredLink rows for user 7 (two
Exits without resumption) plus one row of another user. -/
def dStep : Step := ⟨1, 1, "micro", 2, "打开材料，开始读第一页", "材料已打开在屏幕上", 1, "deferred"⟩

def defer2Db : Db := ⟨[wUser], [], [], [], [wMainline], [dStep], [⟨7, 1, 1⟩, ⟨7, 1, 1⟩, ⟨8, 1, 1⟩], [], [], 2, 2⟩

/-- The task pool of the spec scenario: T1 in_progress, T2 not_started. -/
def tIP : TaskItem := ⟨1, 1, "写论文引言", "in_progress"⟩

def tNS : TaskItem := ⟨2, 1, "整理参考文献", "not_started"⟩

def twoTasksDb : Db := ⟨[], [], [], [tIP, tNS], [], [], [], [], [], 1, 1⟩

def oneTaskDb : Db := ⟨[], [], [], [⟨1, 1, "唯一任务", "not_started"⟩], [], [], [], [], [], 1, 1⟩

/-- A store whose only task sits in another phase: phase 1 has an empty
pool. -/
def emptyPoolDb : Db := ⟨[], [], [], [⟨1, 2, "别的阶段", "not_started"⟩], [], [], [], [], [], 1, 1⟩

def streakUser : User := ⟨7, false, 3, some ("2025-05-31")⟩

def streakDb : Db := ⟨[streakUser], [], [], [], [], [], [], [], [], 1, 1⟩

/-- A generator response carrying the `micro_step` marker key but none
of the required sub-fields. -/
def badMicroResp : MicroResp := ⟨some ⟨none, none, none⟩⟩

/-- The streak update as one turn's state change (what repeated
same-day turns iterate). -/
def run_streak (uid : Nat) (today : String) (db : Db) : Db :=
  ((update_streak db uid today).getD (db, 0)).1

/-! ## Helper lemmas -/

theorem find_eq_head_filter {α : Type} (p : α → Bool) (l : List α) :
    l.find? p = (l.filter p).head? := by
  induction l with
  | nil => rfl
  | cons a t ih =>
      cases hp : p a
      · rw [List.find?_cons_of_neg _ (by simp [hp]), List.filter_cons_of_neg (by simp [hp]), ih]
      · rw [List.find?_cons_of_pos _ hp, List.filter_cons_of_pos hp, List.head?_cons]

theorem find_map_pres {α : Type} (p : α → Bool) (f : α → α) (l : List α)
    (h : ∀ a, p (f a) = p a) : (l.map f).find? p = (l.find? p).map f := by
  induction l with
  | nil => rfl
  | cons a t ih =>
      rw [List.map_cons]
      cases hp : p a
      · rw [List.find?_cons_of_neg _ (by simp [h a, hp]), List.find?_cons_of_neg _ (by simp [hp]), ih]
      · rw [List.find?_cons_of_pos _ (by rw [h a, hp]), List.find?_cons_of_pos _ hp, Option.map_some']

theorem filter_of_filter_not {α : Type} (p : α → Bool) (l : List α) :
    (l.filter (fun a => !(p a))).filter p = [] := by
  induction l with
  | nil => rfl
  | cons a t ih =>
      cases hp : p a
      · rw [List.filter_cons_of_pos (by simp [hp]), List.filter_cons_of_neg (by simp [hp]), ih]
      · rw [List.filter_cons_of_neg (by simp [hp]), ih]

theorem ensure_user_steps (db : Db) (uid : Nat) : (ensure_user db uid).steps = db.steps := by
  unfold ensure_user; split <;> rfl

theorem ensure_user_mainlines (db : Db) (uid : Nat) :
    (ensure_user db uid).mainlines = db.mainlines := by
  unfold ensure_user; split <;> rfl

theorem ensure_user_deferred (db : Db) (uid : Nat) :
    (ensure_user db uid).deferred_links = db.deferred_links := by
  unfold ensure_user; split <;> rfl

theorem ensure_user_nextStepId (db : Db) (uid : Nat) :
    (ensure_user db uid).nextStepId = db.nextStepId := by
  unfold ensure_user; split <;> rfl

theorem get_step_ensure (db : Db) (uid sid : Nat) :
    get_step (ensure_user db uid) sid = get_step db sid := by
  unfold get_step; rw [ensure_user_steps]

/-! ## Claims -/

/-- C5: for every task pool, running the CandidateSelector with
lowEnergy = true and lowEnergy = false produces identical candidate
pairs — the `low_energy` argument is never read by the selector body, so
the two runs are definitionally the same computation. -/
theorem claim5_low_energy_no_influence :
    ∀ (db : Db) (uid : Nat) (phase_id : Option Nat),
      choose_candidates db uid phase_id true = choose_candidates db uid phase_id false := by
  intro db uid phase_id
  rfl

/-- C8, counterexample: a generator response that carries the
`micro_step` marker key but lacks every required sub-field (duration,
instruction, acceptance criteria) is returned as-is by the broker — it is
not replaced by the schema-valid fallback, so the broker's output lacks
required fields, contrary to the claim. -/
theorem claim8_counterexample :
    llm_micro_step ("任务") (some badMicroResp) = badMicroResp ∧
    micro_complete badMicroResp = false ∧
    micro_complete (llm_micro_step ("任务") (some badMicroResp)) = false ∧
    llm_micro_step ("任务") (some badMicroResp) ≠ micro_fallback ("任务") := by
  refine ⟨rfl, rfl, rfl, ?_⟩
  decide

/-- C8 (amended): when generation fails outright (`None` response) or the
response lacks the kind's top-level marker field (`micro_step` / `step` /
`plan` / `intervention_text`), the broker returns the fixed deterministic
fallback keyed by kind — and, for interventions, additionally by
stuck-type — and that fallback contains every required field.  Only the
marker field is validated, so a response carrying the marker with missing
sub-fields is returned as-is (see the counterexample). -/
theorem claim8_fallback_on_failure :
    (∀ title : String, llm_micro_step title none = micro_fallback title) ∧
    (∀ (title : String) (r : MicroResp), r.micro_step = none →
        llm_micro_step title (some r) = micro_fallback title) ∧
    (∀ title : String, micro_complete (micro_fallback title) = true) ∧
    (∀ (title : String) (mi : Option String), llm_upgrade_step title mi none = upgrade_fallback title) ∧
    (∀ (title : String) (mi : Option String) (r : UpgradeResp), r.step = none →
        llm_upgrade_step title mi (some r) = upgrade_fallback title) ∧
    (∀ title : String, llm_if_then title none = if_then_fallback) ∧
    (∀ (st : String) (emo ml si : Option String) (ev : Option (List String)),
        llm_intervention st emo ml si ev none = intervention_fallback st emo ev) ∧
    (∀ (st : String) (emo ml si : Option String) (ev : Option (List String)) (r : InterventionResp),
        r.intervention_text = none →
        llm_intervention st emo ml si ev (some r) = intervention_fallback st emo ev) ∧
    (∀ (st : String) (emo : Option String) (ev : Option (List String)),
        intervention_complete (intervention_fallback st emo ev) = true) := by
  refine ⟨fun _ => rfl, ?_, fun _ => rfl, fun _ _ => rfl, ?_, fun _ => rfl, fun _ _ _ _ _ => rfl, ?_, fun _ _ _ => rfl⟩
  · intro title r h
    simp [llm_micro_step, h]
  · intro title mi r h
    simp [llm_upgrade_step, h]
  · intro st emo ml si ev r h
    simp [llm_intervention, h]

/-- Witness for C8's amended theorem: a marker-less micro response and a
marker-less intervention response both yield the fixed fallbacks. -/
theorem claim8_fallback_on_failure_witness :
    ((⟨none⟩ : MicroResp).micro_step = none ∧
      llm_micro_step ("写论文") (some ⟨none⟩) = micro_fallback ("写论文")) ∧
    ((⟨none, none, none, none, none, none, none⟩ : InterventionResp).intervention_text = none ∧
      llm_intervention ("SELF_LIMITING") (some ("烦躁")) none none (some [("做到过一次")])
        (some ⟨none, none, none, none, none, none, none⟩)
        = intervention_fallback ("SELF_LIMITING") (some ("烦躁")) (some [("做到过一次")])) :=
  ⟨⟨rfl, claim8_fallback_on_failure.2.1 ("写论文") ⟨none⟩ rfl⟩,
   ⟨rfl, claim8_fallback_on_failure.2.2.2.2.2.2.2.1 ("SELF_LIMITING") (some ("烦躁")) none none
      (some [("做到过一次")]) ⟨none, none, none, none, none, none, none⟩ rfl⟩⟩

/-- C7: for every current Step, Shrink creates a new current micro Step
whose instruction is the first clause of the current instruction (split
on the primary delimiter `，`, falling back to `。`) wrapped in the fixed
"do only this one thing" phrase, with duration always 2; in particular
shrinking a Step with instruction 读第一章，写总结 yields an instruction
wrapping exactly the 读第一章 clause. -/
theorem claim7_shrink :
    (∀ (uid : Nat) (st : St) (sid : Nat) (s : Step) (mlid : Nat),
        st.sess.step_id = some sid →
        get_step st.db sid = some s →
        st.sess.ml_id = some mlid →
        ∃ nu : Step,
          (cb_shrink uid st).db.steps = st.db.steps ++ [nu] ∧
          nu.kind = "micro" ∧
          nu.duration_min = 2 ∧
          nu.instruction = "只做一件事：" ++ first_clause s.instruction ++ "。做完就算赢。" ∧
          nu.mainline_id = mlid ∧
          nu.status = "ready" ∧
          (cb_shrink uid st).sess.step_id = some nu.step_id) ∧
    first_clause ("读第一章，写总结") = "读第一章" ∧
    (cb_shrink 7 shrinkSt).db.steps.map (fun s => s.instruction)
      = ["读第一章，写总结", "只做一件事：读第一章。做完就算赢。"] := by
  refine ⟨?_, by decide, by decide⟩
  intro uid st sid s mlid h1 h2 h3
  have hg : get_step (ensure_user st.db uid) sid = some s := by
    rw [get_step_ensure]; exact h2
  refine ⟨⟨(ensure_user st.db uid).nextStepId, mlid, "micro", 2,
      "只做一件事：" ++ first_clause s.instruction ++ "。做完就算赢。", "完成了这一个动作", 1, "ready"⟩,
    ?_, rfl, rfl, rfl, rfl, rfl, ?_⟩
  · simp only [cb_shrink, h1, h3, Option.some_bind, hg, create_step]
    rw [ensure_user_steps]
  · simp only [cb_shrink, h1, h3, Option.some_bind, hg, create_step]

/-- Witness for C7 at the shrink scenario state. -/
theorem claim7_shrink_witness :
    shrinkSt.sess.step_id = some 1 ∧ get_step shrinkSt.db 1 = some shrinkStep ∧
    shrinkSt.sess.ml_id = some 1 ∧
    (∃ nu : Step,
      (cb_shrink 7 shrinkSt).db.steps = shrinkSt.db.steps ++ [nu] ∧
      nu.kind = "micro" ∧
      nu.duration_min = 2 ∧
      nu.instruction = "只做一件事：" ++ first_clause shrinkStep.instruction ++ "。做完就算赢。" ∧
      nu.mainline_id = 1 ∧
      nu.status = "ready" ∧
      (cb_shrink 7 shrinkSt).sess.step_id = some nu.step_id) :=
  ⟨rfl, by decide, rfl,
   claim7_shrink.1 7 shrinkSt 1 shrinkStep 1 rfl (by decide) rfl⟩

theorem get_user_after_fields (db : Db) (uid : Nat) (n : Nat) (d : String) (u : User)
    (h : get_user db uid = some u) :
    get_user (update_user_streak_fields db uid n d) uid
      = some { u with streak_days := n, last_progress_date := some d } := by
  unfold get_user update_user_streak_fields at *
  rw [find_map_pres _ _ _ ?_, h]
  · have hu : (u.user_id == uid) = true := by
      have h3 := List.find?_some h
      exact h3
    simp only [Option.map_some', hu, if_true]
  · intro a
    by_cases ha : (a.user_id == uid) = true
    · simp [ha]
    · simp [Bool.not_eq_true] at ha
      simp [ha]

/-- C6: for every user and day, the streak increases by at most 1 that
day no matter how many Evidence records are appended and how often the
update runs: the first update of the day increments `streak_days` by one
and stamps `last_progress_date`, every further same-day update changes
nothing (idempotence guarded by `last_progress_date`), and appending
Evidence first does not change the reported streak. -/
theorem claim6_streak :
    ∀ (db : Db) (uid : Nat) (today : String) (u : User),
      get_user db uid = some u →
      (u.last_progress_date = some today → update_streak db uid today = some (db, u.streak_days)) ∧
      (u.last_progress_date ≠ some today →
        ∃ db2, update_streak db uid today = some (db2, u.streak_days + 1) ∧
          get_user db2 uid
            = some { u with streak_days := u.streak_days + 1, last_progress_date := some today } ∧
          update_streak db2 uid today = some (db2, u.streak_days + 1)) ∧
      (∀ n, 1 ≤ n → (run_streak uid today)^[n] db = run_streak uid today db) ∧
      (∀ (txt : String) (tags : List String),
        (update_streak (create_evidence db uid txt tags) uid today).map (fun x => x.2)
          = (update_streak db uid today).map (fun x => x.2)) := by
  intro db uid today u hu
  have same : u.last_progress_date = some today →
      update_streak db uid today = some (db, u.streak_days) := by
    intro hd
    simp [update_streak, hu, hd]
  have diff : u.last_progress_date ≠ some today →
      ∃ db2, update_streak db uid today = some (db2, u.streak_days + 1) ∧
        get_user db2 uid
          = some { u with streak_days := u.streak_days + 1, last_progress_date := some today } ∧
        update_streak db2 uid today = some (db2, u.streak_days + 1) := by
    intro hd
    have hb : (u.last_progress_date == some today) = false := by
      simp only [beq_eq_false_iff_ne]
      exact hd
    refine ⟨update_user_streak_fields db uid (u.streak_days + 1) today, ?_, ?_, ?_⟩
    · simp [update_streak, hu, hb, hd]
    · exact get_user_after_fields db uid (u.streak_days + 1) today u hu
    · have h2 := get_user_after_fields db uid (u.streak_days + 1) today u hu
      simp [update_streak, h2]
  refine ⟨same, diff, ?_, ?_⟩
  · have fix : run_streak uid today (run_streak uid today db) = run_streak uid today db := by
      by_cases hd : u.last_progress_date = some today
      · have h1 := same hd
        simp [run_streak, h1]
      · obtain ⟨db2, h1, h2, h3⟩ := diff hd
        simp only [run_streak, h1, h3, Option.getD_some]
    intro n hn
    induction n with
    | zero => cases hn
    | succ m ih =>
        cases Nat.eq_or_lt_of_le hn with
        | inl h => rw [← h]; rfl
        | inr h =>
            have hm : 1 ≤ m := Nat.lt_succ_iff.mp h
            rw [Function.iterate_succ_apply', ih hm, fix]
  · intro txt tags
    have hce : get_user (create_evidence db uid txt tags) uid = some u := hu
    simp only [update_streak, hce, hu, Option.map_some']
    cases hb : (u.last_progress_date == some today) <;> simp [hb]

/-- Witness for C6: user 7 last progressed on an earlier day; the first
update today raises the streak from 3 to 4 and a second same-day update
leaves it at 4. -/
theorem claim6_streak_witness :
    get_user streakDb 7 = some streakUser ∧
    streakUser.last_progress_date ≠ some ("2025-06-01") ∧
    (∃ db2, update_streak streakDb 7 ("2025-06-01") = some (db2, streakUser.streak_days + 1) ∧
      get_user db2 7 = some { streakUser with
        streak_days := streakUser.streak_days + 1, last_progress_date := some ("2025-06-01") } ∧
      update_streak db2 7 ("2025-06-01") = some (db2, streakUser.streak_days + 1)) :=
  ⟨rfl, by decide,
   (claim6_streak streakDb 7 ("2025-06-01") streakUser rfl).2.1 (by decide)⟩

/-- C3: for every non-empty task pool the selector's primary is the
first in_progress task if any exists, else the first not_started task
(insertion order being the only tie-break — this is `spec_primary`,
written from the spec's words), candidate A references the primary, and
candidate B references the first pool member whose id differs from the
primary's whenever one exists; in particular for the pool
[T1: in_progress, T2: not_started], A references T1 and B references T2. -/
theorem claim3_primary_secondary :
    (∀ (db : Db) (uid : Nat) (pid : Nat) (low : Bool),
      (list_tasks db pid (some ("in_progress"))) ++ (list_tasks db pid (some ("not_started"))) ≠ [] →
      ∃ pr, spec_primary db pid = some pr ∧
        (choose_candidates db uid (some pid) low).A.task_id = some pr.task_id ∧
        (∀ s2, ((list_tasks db pid (some ("in_progress"))) ++ (list_tasks db pid (some ("not_started")))).find?
            (fun t => !(t.task_id == pr.task_id)) = some s2 →
          (choose_candidates db uid (some pid) low).B.task_id = some s2.task_id)) ∧
    ((choose_candidates twoTasksDb 7 (some 1) false).A.task_id = some tIP.task_id ∧
     (choose_candidates twoTasksDb 7 (some 1) false).B.task_id = some tNS.task_id) := by
  refine ⟨?_, by decide, by decide⟩
  intro db uid pid low hne
  have hp : resolve_phase db uid (some pid) = some pid := rfl
  unfold choose_candidates
  simp only [hp]
  cases hip : list_tasks db pid (some ("in_progress")) with
  | cons a tl =>
      have hfip : db.tasks.find? (fun t => t.phase_id == pid && t.status == "in_progress") = some a := by
        rw [find_eq_head_filter]
        have hflt : db.tasks.filter (fun t => t.phase_id == pid && t.status == "in_progress") = a :: tl := hip
        rw [hflt]
        rfl
      simp only []
      refine ⟨a, ?_, ?_, ?_⟩
      · unfold spec_primary
        rw [hfip]
      · rfl
      · intro s2 hs2
        rw [hs2]
        rfl
  | nil =>
      rw [hip] at hne
      simp only [List.nil_append] at hne
      cases hns : list_tasks db pid (some ("not_started")) with
      | nil => exact absurd hns hne
      | cons b bs =>
          have hfip : db.tasks.find? (fun t => t.phase_id == pid && t.status == "in_progress") = none := by
            rw [find_eq_head_filter]
            have hflt : db.tasks.filter (fun t => t.phase_id == pid && t.status == "in_progress") = [] := hip
            rw [hflt]
            rfl
          have hfns : db.tasks.find? (fun t => t.phase_id == pid && t.status == "not_started") = some b := by
            rw [find_eq_head_filter]
            have hflt : db.tasks.filter (fun t => t.phase_id == pid && t.status == "not_started") = b :: bs := hns
            rw [hflt]
            rfl
          simp only [List.nil_append, List.headD_cons]
          refine ⟨b, ?_, ?_, ?_⟩
          · unfold spec_primary
            rw [hfip, hfns]
          · rfl
          · intro s2 hs2
            rw [hs2]
            rfl

/-- Witness for C3 at the scenario pool [T1: in_progress, T2: not_started]. -/
theorem claim3_primary_secondary_witness :
    (list_tasks twoTasksDb 1 (some ("in_progress"))) ++ (list_tasks twoTasksDb 1 (some ("not_started"))) ≠ [] ∧
    (∃ pr, spec_primary twoTasksDb 1 = some pr ∧
      (choose_candidates twoTasksDb 7 (some 1) false).A.task_id = some pr.task_id ∧
      (∀ s2, ((list_tasks twoTasksDb 1 (some ("in_progress"))) ++ (list_tasks twoTasksDb 1 (some ("not_started")))).find?
          (fun t => !(t.task_id == pr.task_id)) = some s2 →
        (choose_candidates twoTasksDb 7 (some 1) false).B.task_id = some s2.task_id)) :=
  ⟨by decide, claim3_primary_secondary.1 twoTasksDb 7 1 false (by decide)⟩

/-- C4: the CandidateSelector always returns a complete pair; with no
resolvable phase or an empty pool, A and B differ in content and carry
no task reference; with exactly one pool task, A and B reference the
same task id; with at least two pool tasks (whose ids, being primary
keys, are distinct), A and B reference different task ids. -/
theorem claim4_pair_shape :
    ∀ (db : Db) (uid : Nat) (pid? : Option Nat) (low : Bool),
      (resolve_phase db uid pid? = none →
        ((choose_candidates db uid pid? low).A ≠ (choose_candidates db uid pid? low).B ∧
         (choose_candidates db uid pid? low).A.task_id = none ∧
         (choose_candidates db uid pid? low).B.task_id = none)) ∧
      (∀ p, resolve_phase db uid pid? = some p →
        ((list_tasks db p (some ("in_progress"))) ++ (list_tasks db p (some ("not_started"))) = [] →
          ((choose_candidates db uid pid? low).A ≠ (choose_candidates db uid pid? low).B ∧
           (choose_candidates db uid pid? low).A.task_id = none ∧
           (choose_candidates db uid pid? low).B.task_id = none)) ∧
        (∀ t, (list_tasks db p (some ("in_progress"))) ++ (list_tasks db p (some ("not_started"))) = [t] →
          ((choose_candidates db uid pid? low).A.task_id = some t.task_id ∧
           (choose_candidates db uid pid? low).B.task_id = some t.task_id)) ∧
        (2 ≤ ((list_tasks db p (some ("in_progress"))) ++ (list_tasks db p (some ("not_started")))).length →
         (((list_tasks db p (some ("in_progress"))) ++ (list_tasks db p (some ("not_started")))).map (fun t => t.task_id)).Nodup →
          ((choose_candidates db uid pid? low).A.task_id.isSome = true ∧
           (choose_candidates db uid pid? low).B.task_id.isSome = true ∧
           (choose_candidates db uid pid? low).A.task_id ≠ (choose_candidates db uid pid? low).B.task_id))) := by
  intro db uid pid? low
  constructor
  · intro h
    have hcc : choose_candidates db uid pid? low =
        ⟨⟨"建立任务池 — 写出5个待办任务标题", "还没有任务", none⟩,
         ⟨"建立任务池 — 写出3个关键任务标题", "轻量版", none⟩⟩ := by
      unfold choose_candidates
      rw [h]
    rw [hcc]
    exact ⟨by decide, rfl, rfl⟩
  · intro p hp
    refine ⟨?_, ?_, ?_⟩
    · intro hpool
      have hcc : choose_candidates db uid pid? low =
          ⟨⟨"建立任务池 — 写出5个待办任务标题", "任务池为空", none⟩,
           ⟨"建立任务池 — 写出3个关键任务标题", "轻量版", none⟩⟩ := by
        unfold choose_candidates
        simp only [hp, hpool]
        rfl
      rw [hcc]
      exact ⟨by decide, rfl, rfl⟩
    · intro t hpool
      unfold choose_candidates
      simp only [hp]
      cases hip : list_tasks db p (some ("in_progress")) with
      | nil =>
          rw [hip] at hpool
          simp only [List.nil_append] at hpool
          simp only [hip, hpool]
          simp
      | cons a tl =>
          rw [hip] at hpool
          simp only [List.cons_append] at hpool
          injection hpool with h1 h2
          subst h1
          obtain ⟨htl, hns⟩ := List.append_eq_nil.mp h2
          subst htl
          simp [hip, hns]
    · intro hlen hnd
      unfold choose_candidates
      simp only [hp]
      cases hip : list_tasks db p (some ("in_progress")) with
      | nil =>
          rw [hip] at hlen hnd
          simp only [List.nil_append] at hlen hnd
          cases hns : list_tasks db p (some ("not_started")) with
          | nil => rw [hns] at hlen; simp at hlen
          | cons b bs =>
              rw [hns] at hlen hnd
              cases bs with
              | nil => simp at hlen
              | cons c cs =>
                  simp only [List.map_cons, List.nodup_cons, List.mem_cons] at hnd
                  have hbc : ¬(b.task_id = c.task_id) := fun hq => hnd.1 (Or.inl hq)
                  have hf : (c.task_id == b.task_id) = false :=
                    beq_eq_false_iff_ne.mpr (fun hq => hbc hq.symm)
                  simp only [hip, hns]
                  simp [hf, hbc]
      | cons a tl =>
          rw [hip] at hlen hnd
          cases htn : tl ++ list_tasks db p (some ("not_started")) with
          | nil =>
              rw [List.cons_append, htn] at hlen
              simp at hlen
          | cons c cs =>
              have hpool2 : (a :: tl) ++ list_tasks db p (some ("not_started")) = a :: c :: cs := by
                rw [List.cons_append, htn]
              rw [hpool2] at hnd
              simp only [List.map_cons, List.nodup_cons, List.mem_cons] at hnd
              have hac : ¬(a.task_id = c.task_id) := fun hq => hnd.1 (Or.inl hq)
              have hf : (c.task_id == a.task_id) = false :=
                beq_eq_false_iff_ne.mpr (fun hq => hac hq.symm)
              simp only [hip, hpool2]
              simp [hf, hac]

/-- Witness for C4: empty pool, one-task pool and two-task pool all
instantiated on concrete stores. -/
theorem claim4_pair_shape_witness :
    (resolve_phase emptyPoolDb 7 (some 1) = some 1 ∧
     (list_tasks emptyPoolDb 1 (some ("in_progress"))) ++ (list_tasks emptyPoolDb 1 (some ("not_started"))) = [] ∧
     ((choose_candidates emptyPoolDb 7 (some 1) false).A ≠ (choose_candidates emptyPoolDb 7 (some 1) false).B ∧
      (choose_candidates emptyPoolDb 7 (some 1) false).A.task_id = none ∧
      (choose_candidates emptyPoolDb 7 (some 1) false).B.task_id = none)) ∧
    ((choose_candidates oneTaskDb 7 (some 1) false).A.task_id = some 1 ∧
     (choose_candidates oneTaskDb 7 (some 1) false).B.task_id = some 1) ∧
    ((choose_candidates twoTasksDb 7 (some 1) false).A.task_id.isSome = true ∧
     (choose_candidates twoTasksDb 7 (some 1) false).B.task_id.isSome = true ∧
     (choose_candidates twoTasksDb 7 (some 1) false).A.task_id ≠ (choose_candidates twoTasksDb 7 (some 1) false).B.task_id) :=
  ⟨⟨rfl, by decide, ((claim4_pair_shape emptyPoolDb 7 (some 1) false).2 1 rfl).1 (by decide)⟩,
   ((claim4_pair_shape oneTaskDb 7 (some 1) false).2 1 rfl).2.1 ⟨1, 1, "唯一任务", "not_started"⟩ (by decide),
   ((claim4_pair_shape twoTasksDb 7 (some 1) false).2 1 rfl).2.2 (by decide) (by decide)⟩

/-- C1: with a current micro Step in status executing and a coherent
session, the complete-micro transition sets exactly that Step's status
to done (every other row kept verbatim by the map) and appends exactly
one new Step, of upgrade kind and status ready, on the same Mainline,
which becomes the current Step; the complete-upgrade transition sets the
current upgrade Step's status to done, appends no Step, and enters the
Review sub-flow. -/
theorem claim1_complete_transitions :
    (∀ (uid : Nat) (st : St) (r : Option UpgradeResp) (sid : Nat) (s : Step) (mlid : Nat),
        st.sess.step_id = some sid →
        get_step st.db sid = some s →
        s.kind = "micro" →
        s.status = "executing" →
        st.sess.ml_id = some mlid →
        s.mainline_id = mlid →
        wellFormedUpgrade r = true →
        ∃ st' nu,
          cb_done_micro uid r st = some st' ∧
          st'.db.steps
            = st.db.steps.map (fun t => if t.step_id == sid then { t with status := "done" } else t) ++ [nu] ∧
          st'.db.steps.length = st.db.steps.length + 1 ∧
          nu.kind = "upgrade" ∧
          nu.mainline_id = mlid ∧
          nu.status = "ready" ∧
          st'.sess.step_id = some nu.step_id ∧
          st'.sess.ml_id = some mlid ∧
          st'.screen = Screen.upgradeOffer) ∧
    (∀ (uid : Nat) (st : St) (sid : Nat) (s : Step),
        st.sess.step_id = some sid →
        get_step st.db sid = some s →
        s.kind = "upgrade" →
        s.status = "executing" →
        ((cb_done_upgrade uid st).db.steps
            = st.db.steps.map (fun t => if t.step_id == sid then { t with status := "done" } else t) ∧
         (cb_done_upgrade uid st).db.steps.length = st.db.steps.length ∧
         (cb_done_upgrade uid st).sess = st.sess ∧
         (cb_done_upgrade uid st).screen = Screen.reviewTags)) := by
  constructor
  · intro uid st r sid s mlid h1 h2 hk hs h3 hm hwf
    cases r with
    | none =>
        simp only [cb_done_micro, h1, h3, llm_upgrade_step, upgrade_fallback, update_step,
          create_step, ensure_user_steps, ensure_user_nextStepId, ensure_user_mainlines]
        refine ⟨_, _, rfl, rfl, ?_, rfl, rfl, rfl, rfl, rfl, rfl⟩
        simp
    | some resp =>
        cases hrs : resp.step with
        | none =>
            simp only [cb_done_micro, h1, h3, llm_upgrade_step, hrs, Option.isSome_none,
              Bool.false_eq_true, if_false, upgrade_fallback, update_step, create_step,
              ensure_user_steps, ensure_user_nextStepId, ensure_user_mainlines]
            refine ⟨_, _, rfl, rfl, ?_, rfl, rfl, rfl, rfl, rfl, rfl⟩
            simp
        | some us =>
            simp only [wellFormedUpgrade, hrs, Bool.and_eq_true] at hwf
            obtain ⟨⟨hd, hi⟩, hc⟩ := hwf
            obtain ⟨dur, hdur⟩ := Option.isSome_iff_exists.mp hd
            obtain ⟨instr, hinstr⟩ := Option.isSome_iff_exists.mp hi
            obtain ⟨crit, hcrit⟩ := Option.isSome_iff_exists.mp hc
            simp only [cb_done_micro, h1, h3, llm_upgrade_step, hrs, Option.isSome_some, if_true,
              hdur, hinstr, hcrit, update_step, create_step,
              ensure_user_steps, ensure_user_nextStepId, ensure_user_mainlines]
            refine ⟨_, _, rfl, rfl, ?_, rfl, rfl, rfl, rfl, rfl, rfl⟩
            simp
  · intro uid st sid s h1 h2 hk hs
    refine ⟨?_, ?_, rfl, rfl⟩
    · simp only [cb_done_upgrade, h1, update_step, ensure_user_steps]
    · simp only [cb_done_upgrade, h1, update_step, ensure_user_steps]
      simp

/-- Witness for C1: both transitions run on concrete executing steps
(micro with the broker falling back, upgrade entering review). -/
theorem claim1_complete_transitions_witness :
    (wSt.sess.step_id = some 1 ∧ get_step wSt.db 1 = some wStep ∧ wStep.kind = "micro" ∧
     wStep.status = "executing" ∧ wSt.sess.ml_id = some 1 ∧ wStep.mainline_id = 1 ∧
     wellFormedUpgrade none = true) ∧
    (∃ st' nu,
      cb_done_micro 7 none wSt = some st' ∧
      st'.db.steps
        = wSt.db.steps.map (fun t => if t.step_id == 1 then { t with status := "done" } else t) ++ [nu] ∧
      st'.db.steps.length = wSt.db.steps.length + 1 ∧
      nu.kind = "upgrade" ∧
      nu.mainline_id = 1 ∧
      nu.status = "ready" ∧
      st'.sess.step_id = some nu.step_id ∧
      st'.sess.ml_id = some 1 ∧
      st'.screen = Screen.upgradeOffer) ∧
    ((cb_done_upgrade 7 upgSt).db.steps
        = upgSt.db.steps.map (fun t => if t.step_id == 1 then { t with status := "done" } else t) ∧
     (cb_done_upgrade 7 upgSt).db.steps.length = upgSt.db.steps.length ∧
     (cb_done_upgrade 7 upgSt).sess = upgSt.sess ∧
     (cb_done_upgrade 7 upgSt).screen = Screen.reviewTags) :=
  ⟨⟨rfl, by decide, rfl, rfl, rfl, rfl, rfl⟩,
   claim1_complete_transitions.1 7 wSt none 1 wStep 1 rfl (by decide) rfl rfl rfl rfl rfl,
   claim1_complete_transitions.2 7 upgSt 1 upgStep rfl (by decide) rfl rfl⟩

/-- `ensure_user` never touches the deferral query. -/
theorem get_deferred_ensure (db : Db) (uid uid2 : Nat) :
    get_deferred (ensure_user db uid) uid2 = get_deferred db uid2 := by
  unfold get_deferred
  rw [ensure_user_deferred]
  have hj : joinDeferred (ensure_user db uid) = joinDeferred db := by
    funext d
    unfold joinDeferred
    rw [get_step_ensure, ensure_user_mainlines]
  rw [hj]

/-- Updating a step status rewrites exactly the matching row. -/
theorem get_step_update (db : Db) (sid : Nat) (stat : String) (s : Step)
    (h : get_step db sid = some s) :
    get_step (update_step db sid stat) sid = some { s with status := stat } := by
  unfold get_step update_step at *
  rw [find_map_pres]
  · rw [h]
    have hps : (s.step_id == sid) = true := by
      have h4 := List.find?_some h
      exact h4
    simp only [Option.map_some', hps, if_true]
  · intro a
    by_cases ha : (a.step_id == sid) = true
    · simp [ha]
    · simp only [Bool.not_eq_true] at ha
      simp [ha]

/-- Exit leaves a DeferredLink whose most recent joined row points at
the deferred step with its instruction intact. -/
theorem cb_exit_deferred (uid : Nat) (st : St) (sid : Nat) (s : Step) (mlid : Nat) (m : Mainline)
    (h1 : st.sess.step_id = some sid)
    (h2 : get_step st.db sid = some s)
    (h3 : st.sess.ml_id = some mlid)
    (hml : st.db.mainlines.find? (fun ml => ml.mainline_id == mlid) = some m) :
    get_deferred (cb_exit uid st).db uid
      = some (⟨uid, sid, mlid⟩, { s with status := "deferred" }, m) := by
  have hg0 : get_step (ensure_user st.db uid) sid = some s := by
    rw [get_step_ensure]; exact h2
  simp only [cb_exit, h1, h3]
  unfold get_deferred
  simp only [create_deferred, update_step]
  rw [List.filter_append, List.filterMap_append]
  have hx : List.filter (fun d => d.user_id == uid) [(⟨uid, sid, mlid⟩ : DeferredLink)]
      = [⟨uid, sid, mlid⟩] := by simp
  rw [hx]
  have hjx : List.filterMap
      (joinDeferred { ensure_user st.db uid with
        steps := (ensure_user st.db uid).steps.map
          (fun x => if x.step_id == sid then { x with status := "deferred" } else x),
        deferred_links := (ensure_user st.db uid).deferred_links ++ [⟨uid, sid, mlid⟩] })
      [(⟨uid, sid, mlid⟩ : DeferredLink)]
      = [(⟨uid, sid, mlid⟩, { s with status := "deferred" }, m)] := by
    unfold joinDeferred get_step
    have hfs : ((ensure_user st.db uid).steps.map
        (fun x => if x.step_id == sid then { x with status := "deferred" } else x)).find?
          (fun x => x.step_id == sid) = some { s with status := "deferred" } := by
      rw [find_map_pres]
      · unfold get_step at hg0
        rw [hg0]
        have hps : (s.step_id == sid) = true := by
          have h4 := List.find?_some hg0
          exact h4
        simp only [Option.map_some', hps, if_true]
      · intro a
        by_cases ha : (a.step_id == sid) = true
        · simp [ha]
        · simp only [Bool.not_eq_true] at ha
          simp [ha]
    simp only [List.filterMap_cons, hfs, Option.some_bind, ensure_user_mainlines, hml, Option.map_some']
    rfl
  rw [hjx, List.getLast?_concat]

/-- With no deferral present, entry resolution falls through to the
live-Step check: its branch is never the deferred one. -/
theorem cmd_today_branch_not_deferred (uid : Nat) (today : String) (g : GenInputs) (st : St)
    (h : get_deferred (ensure_user st.db uid) uid = none) :
    (cmd_today uid today g st).1 ≠ Branch.resumedDeferred := by
  simp only [cmd_today, h]
  cases hm2 : get_today_mainline (ensure_user st.db uid) uid today with
  | none => simp
  | some mm =>
      cases ha2 : get_active_step (ensure_user st.db uid) mm.mainline_id with
      | none => simp [ha2]
      | some ss => simp [ha2]

/-- C2: Exit followed by the next Entry resolution round-trips the
executing Step: Exit marks it deferred and writes a DeferredLink
pointing at it; the next Entry resolution takes the deferred branch,
marks the same Step ready with every other field (in particular its
instruction) unchanged, deletes the user's DeferredLink rows, adopts it
as current, and a second resolution with no intervening Exit finds no
deferral and falls through to the live-Step check. -/
theorem claim2_exit_resume :
    ∀ (uid : Nat) (today : String) (g g2 : GenInputs) (st : St) (sid : Nat) (s : Step) (mlid : Nat) (m : Mainline),
      st.sess.step_id = some sid →
      get_step st.db sid = some s →
      s.status = "executing" →
      st.sess.ml_id = some mlid →
      s.mainline_id = mlid →
      st.db.mainlines.find? (fun ml => ml.mainline_id == mlid) = some m →
      (get_step (cb_exit uid st).db sid = some { s with status := "deferred" } ∧
       get_deferred (cb_exit uid st).db uid
         = some (⟨uid, sid, mlid⟩, { s with status := "deferred" }, m) ∧
       (cmd_today uid today g (cb_exit uid st)).1 = Branch.resumedDeferred ∧
       (∃ st2, (cmd_today uid today g (cb_exit uid st)).2 = some st2 ∧
         get_step st2.db sid = some { s with status := "ready" } ∧
         st2.sess.step_id = some sid ∧
         st2.sess.ml_id = some mlid ∧
         st2.db.deferred_links.filter (fun d => d.user_id == uid) = [] ∧
         (cmd_today uid today g2 st2).1 ≠ Branch.resumedDeferred)) := by
  intro uid today g g2 st sid s mlid m h1 h2 hs h3 hm hml
  have hg0 : get_step (ensure_user st.db uid) sid = some s := by
    rw [get_step_ensure]; exact h2
  have hdef := cb_exit_deferred uid st sid s mlid m h1 h2 h3 hml
  have hstep1 : get_step (cb_exit uid st).db sid = some { s with status := "deferred" } := by
    simp only [cb_exit, h1, h3]
    have : get_step (create_deferred (update_step (ensure_user st.db uid) sid ("deferred")) uid sid mlid) sid
        = get_step (update_step (ensure_user st.db uid) sid ("deferred")) sid := rfl
    rw [this]
    exact get_step_update _ sid ("deferred") s hg0
  have hd0 : get_deferred (ensure_user (cb_exit uid st).db uid) uid
      = some (⟨uid, sid, mlid⟩, { s with status := "deferred" }, m) := by
    rw [get_deferred_ensure]
    exact hdef
  refine ⟨hstep1, hdef, ?_, ?_⟩
  · simp only [cmd_today, hd0]
  · simp only [cmd_today, hd0]
    refine ⟨_, rfl, ?_, rfl, rfl, ?_, ?_⟩
    · have hg1 : get_step (ensure_user (cb_exit uid st).db uid) sid
          = some { s with status := "deferred" } := by
        rw [get_step_ensure]
        exact hstep1
      exact get_step_update (ensure_user (cb_exit uid st).db uid) sid ("ready")
        ({ s with status := "deferred" }) hg1
    · exact filter_of_filter_not _ _
    · have hd2 : get_deferred (ensure_user
          (clear_deferred (update_step (ensure_user (cb_exit uid st).db uid) sid ("ready")) uid) uid) uid
          = none := by
        rw [get_deferred_ensure]
        unfold get_deferred
        simp only [clear_deferred]
        rw [filter_of_filter_not]
        rfl
      exact cmd_today_branch_not_deferred uid today g2 _ hd2

/-- Witness for C2 at the spec scenario: the executing Step with
instruction 打开材料，开始读第一页 is deferred and resumed verbatim. -/
theorem claim2_exit_resume_witness :
    (wSt.sess.step_id = some 1 ∧ get_step wSt.db 1 = some wStep ∧ wStep.status = "executing" ∧
     wSt.sess.ml_id = some 1 ∧ wStep.mainline_id = 1 ∧
     wSt.db.mainlines.find? (fun ml => ml.mainline_id == 1) = some wMainline) ∧
    (get_step (cb_exit 7 wSt).db 1 = some { wStep with status := "deferred" } ∧
     get_deferred (cb_exit 7 wSt).db 7 = some (⟨7, 1, 1⟩, { wStep with status := "deferred" }, wMainline) ∧
     (cmd_today 7 ("2025-06-02") ⟨none, none⟩ (cb_exit 7 wSt)).1 = Branch.resumedDeferred ∧
     (∃ st2, (cmd_today 7 ("2025-06-02") ⟨none, none⟩ (cb_exit 7 wSt)).2 = some st2 ∧
       get_step st2.db 1 = some { wStep with status := "ready" } ∧
       st2.sess.step_id = some 1 ∧
       st2.sess.ml_id = some 1 ∧
       st2.db.deferred_links.filter (fun d => d.user_id == 7) = [] ∧
       (cmd_today 7 ("2025-06-02") ⟨none, none⟩ st2).1 ≠ Branch.resumedDeferred)) :=
  ⟨⟨rfl, by decide, rfl, rfl, rfl, by decide⟩,
   claim2_exit_resume 7 ("2025-06-02") ⟨none, none⟩ ⟨none, none⟩ wSt 1 wStep 1 wMainline
     rfl (by decide) rfl rfl rfl (by decide)⟩

/-- Fresh generation only appends mainline/task/step/plan rows; the
deferral table is untouched. -/
theorem gen_today_links (uid : Nat) (today : String) (g : GenInputs) (st : St) (st' : St)
    (h : gen_today uid today g st = some st') :
    st'.db.deferred_links = st.db.deferred_links := by
  unfold gen_today at h
  cases hu : get_user st.db uid with
  | none => rw [hu] at h; cases h
  | some u =>
      rw [hu] at h
      simp only [] at h
      repeat' split at h
      all_goals cases h
      all_goals rfl

/-- C10: clearing the deferral — in the deferred branch of Entry
resolution and in the fresh-generation action — deletes every
DeferredLink row of that user, not only the newest: one resumption
leaves the user with zero rows while other users' rows survive. -/
theorem claim10_clear_deferred_all :
    (∀ (db : Db) (sess : Session) (scr : Screen) (uid : Nat) (today : String) (g : GenInputs)
        (x : DeferredLink × Step × Mainline),
        get_deferred db uid = some x →
        ((cmd_today uid today g ⟨db, sess, scr⟩).1 = Branch.resumedDeferred ∧
         ∃ st', (cmd_today uid today g ⟨db, sess, scr⟩).2 = some st' ∧
           st'.db.deferred_links.filter (fun d => d.user_id == uid) = [] ∧
           st'.db.deferred_links = db.deferred_links.filter (fun d => !(d.user_id == uid)))) ∧
    (∀ (st : St) (uid : Nat) (today : String) (g : GenInputs) (st' : St),
        cb_today_fresh uid today g st = some st' →
        st'.db.deferred_links.filter (fun d => d.user_id == uid) = []) := by
  constructor
  · intro db sess scr uid today g x hx
    have hd0 : get_deferred (ensure_user db uid) uid = some x := by
      rw [get_deferred_ensure]
      exact hx
    simp only [cmd_today, hd0]
    refine ⟨trivial, _, rfl, ?_, ?_⟩
    · exact filter_of_filter_not _ _
    · simp only [clear_deferred, update_step, ensure_user_deferred]
  · intro st uid today g st' h
    unfold cb_today_fresh at h
    have hl := gen_today_links uid today g _ st' h
    rw [hl]
    exact filter_of_filter_not _ _

/-- Witness for C10: user 7 holds two coexisting DeferredLink rows (and
user 8 one); a single resumption, or the fresh-generation action,
leaves user 7 with zero rows. -/
theorem claim10_clear_deferred_all_witness :
    (get_deferred defer2Db 7 = some (⟨7, 1, 1⟩, dStep, wMainline) ∧
     2 ≤ (defer2Db.deferred_links.filter (fun d => d.user_id == 7)).length) ∧
    ((cmd_today 7 ("2025-06-02") ⟨none, none⟩ ⟨defer2Db, ⟨none, none⟩, Screen.mainMenu⟩).1 = Branch.resumedDeferred ∧
     ∃ st', (cmd_today 7 ("2025-06-02") ⟨none, none⟩ ⟨defer2Db, ⟨none, none⟩, Screen.mainMenu⟩).2 = some st' ∧
       st'.db.deferred_links.filter (fun d => d.user_id == 7) = [] ∧
       st'.db.deferred_links = defer2Db.deferred_links.filter (fun d => !(d.user_id == 7))) ∧
    (∃ stf, cb_today_fresh 7 ("2025-06-02") ⟨none, none⟩ ⟨defer2Db, ⟨none, none⟩, Screen.mainMenu⟩ = some stf ∧
      stf.db.deferred_links.filter (fun d => d.user_id == 7) = []) :=
  ⟨⟨by decide, by decide⟩,
   claim10_clear_deferred_all.1 defer2Db ⟨none, none⟩ Screen.mainMenu 7 ("2025-06-02") ⟨none, none⟩
     (⟨7, 1, 1⟩, dStep, wMainline) (by decide),
   ⟨_, rfl, claim10_clear_deferred_all.2 ⟨defer2Db, ⟨none, none⟩, Screen.mainMenu⟩ 7 ("2025-06-02") ⟨none, none⟩ _ rfl⟩⟩

/-- One loop iteration contributes exactly the stripped first dash
field as a title, and only when it is non-empty. -/
theorem parse_line_fold_titles (acc : List ImportItem) (l : String) :
    (parse_line_fold acc l).map (fun it => it.title)
      = acc.map (fun it => it.title)
        ++ (if (pyStrip ((dashSplit (pyStrip l)).headD ("")) == "") = true then []
            else [pyStrip ((dashSplit (pyStrip l)).headD (""))]) := by
  unfold parse_line_fold
  by_cases hl : (pyStrip l == "") = true
  · rw [if_pos hl]
    have he : pyStrip l = "" := eq_of_beq hl
    rw [he]
    have h0 : pyStrip ((dashSplit ("")).headD ("")) = "" := rfl
    rw [h0]
    simp
  · rw [if_neg hl]
    by_cases ht : (pyStrip ((dashSplit (pyStrip l)).headD ("")) == "") = true
    · rw [if_pos ht, if_pos ht]
      simp
    · rw [if_neg ht, if_neg ht]
      simp

/-- The whole fold produces one title per line whose first dash field
strips to something non-empty, in order. -/
theorem parse_fold_titles (lines : List String) (acc : List ImportItem) :
    ((lines.foldl parse_line_fold acc).map (fun it => it.title))
      = acc.map (fun it => it.title)
        ++ ((lines.map (fun l => pyStrip ((dashSplit (pyStrip l)).headD ("")))).filter
            (fun t => !(t == ""))) := by
  induction lines generalizing acc with
  | nil => simp
  | cons l t ih =>
      rw [List.foldl_cons, ih, parse_line_fold_titles, List.map_cons, List.filter_cons]
      by_cases h : (pyStrip ((dashSplit (pyStrip l)).headD ("")) == "") = true
      · have h2 : pyStrip ((dashSplit (pyStrip l)).headD ("")) = "" := eq_of_beq h
        simp [h, h2, -List.headD_eq_head?_getD]
      · have h2 : ¬ (pyStrip ((dashSplit (pyStrip l)).headD ("")) = "") := fun hq => h (beq_iff_eq.mpr hq)
        simp [h, h2, -List.headD_eq_head?_getD]

/-- The field loop only ever writes statuses from the closed
vocabulary into the accumulator. -/
theorem applyField_status_vocab (parts : List String) (acc : String × List String × String)
    (h : (["not_started", "in_progress", "completed", "dropped"].contains acc.1) = true) :
    (["not_started", "in_progress", "completed", "dropped"].contains
      ((parts.foldl applyField acc).1)) = true := by
  induction parts generalizing acc with
  | nil => exact h
  | cons p t ih =>
      rw [List.foldl_cons]
      apply ih
      unfold applyField
      by_cases h1 : (pyLower (pyStrip p) == "not_started" || pyLower (pyStrip p) == "in_progress"
          || pyLower (pyStrip p) == "completed" || pyLower (pyStrip p) == "dropped") = true
      · rw [if_pos h1]
        simp only [Bool.or_eq_true, beq_iff_eq] at h1
        rcases h1 with ((h1 | h1) | h1) | h1 <;> simp [h1]
      · rw [if_neg h1]
        split
        · exact h
        · split
          · exact h
          · exact h

/-- Every item the fold emits carries a status from the closed
vocabulary. -/
theorem parse_fold_status (lines : List String) (acc : List ImportItem)
    (h : acc.all (fun it => (["not_started", "in_progress", "completed", "dropped"].contains it.status)) = true) :
    ((lines.foldl parse_line_fold acc).all
      (fun it => (["not_started", "in_progress", "completed", "dropped"].contains it.status))) = true := by
  induction lines generalizing acc with
  | nil => exact h
  | cons l t ih =>
      rw [List.foldl_cons]
      apply ih
      unfold parse_line_fold
      simp only []
      split
      · exact h
      · split
        · exact h
        · rw [List.all_append]
          refine (Bool.and_eq_true _ _).mpr ⟨h, ?_⟩
          simp only [List.all_cons, List.all_nil, Bool.and_true]
          exact applyField_status_vocab _ _ rfl

/-- C9: the import parser returns one structured item per non-empty
line — its title being the stripped text before the first dash-like
delimiter, with empty-title lines producing no item — every item's
status lies in the closed vocabulary, and on the concrete input a
recognised status token sets the status, a tags:-prefixed field sets
the comma-separated tag list, an unrecognised trailing token is
ignored, and blank or empty-title lines are dropped. -/
theorem claim9_import_parse :
    (∀ raw : String,
        (parse_import_text raw).map (fun it => it.title)
          = ((pySplitChar (pyStrip raw) (fun c => c == '\n')).map
              (fun l => pyStrip ((dashSplit (pyStrip l)).headD ("")))).filter (fun t => !(t == ""))) ∧
    (∀ raw : String,
        ((parse_import_text raw).all
          (fun it => (["not_started", "in_progress", "completed", "dropped"].contains it.status))) = true) ∧
    (parse_import_text ("读第一章 - in_progress - tags:math, hard - 随便\n\n— 空标题")
      = [⟨"读第一章", "misc", "in_progress", ["math", "hard"], none⟩]) := by
  refine ⟨?_, ?_, by decide⟩
  · intro raw
    unfold parse_import_text
    rw [parse_fold_titles]
    rfl
  · intro raw
    unfold parse_import_text
    exact parse_fold_status _ _ rfl
